import Mathlib

/-!
# AVRmillis: a verification development

A shallow embedding of `include/defines.h` and of the class `AVR_millis`
(`AVRmillis.h`, `AVRmillis.cpp`), followed by theorems about it.

Machine integers are natural numbers; every place where the C++ code
truncates to `uint8_t` or `uint32_t` is written as an explicit `% 256` or
`% 2 ^ 32`.  The clock speed `F_CPU` is a build-time macro, so every
definition that depends on it takes it as its first argument.  Below 1 MHz
`clockCyclesPerMicrosecond()` is 0 and the C++ macros divide by zero, so such
a build does not exist; statements quantified over `F_CPU` are about the
builds from 1 MHz upwards.
-/

namespace AVRmillis

/-! ## defines.h -/

/-- Macro `clockCyclesPerMicrosecond()`: `( F_CPU / 1000000L )`. -/
def clockCyclesPerMicrosecond (F_CPU : Nat) : Nat := F_CPU / 1000000

/-- Macro `clockCyclesToMicroseconds(a)`: `( (a) / clockCyclesPerMicrosecond() )`. -/
def clockCyclesToMicroseconds (F_CPU a : Nat) : Nat := a / clockCyclesPerMicrosecond F_CPU

/-- Macro `MICROSECONDS_PER_TIMER0_OVERFLOW`: `(clockCyclesToMicroseconds(64 * 256))`. -/
def MICROSECONDS_PER_TIMER0_OVERFLOW (F_CPU : Nat) : Nat :=
  clockCyclesToMicroseconds F_CPU (64 * 256)

/-- Macro `MILLIS_INC`: `(MICROSECONDS_PER_TIMER0_OVERFLOW / 1000)`. -/
def MILLIS_INC (F_CPU : Nat) : Nat := MICROSECONDS_PER_TIMER0_OVERFLOW F_CPU / 1000

/-- Macro `FRACT_INC`: `((MICROSECONDS_PER_TIMER0_OVERFLOW % 1000) >> 3)`. -/
def FRACT_INC (F_CPU : Nat) : Nat := (MICROSECONDS_PER_TIMER0_OVERFLOW F_CPU % 1000) >>> 3

/-- Macro `FRACT_MAX`: `(1000 >> 3)`. -/
def FRACT_MAX : Nat := 1000 >>> 3

/-- The clock speed of the reference configuration, 16 MHz. -/
def F_CPU_16MHz : Nat := 16000000

/-! ## Device constants

Bit numbers of the ATmega328P, the device named by the header comments.  They
come from the device header behind `<avr/io.h>`. -/

/-- Timer/Counter0 overflow flag, bit 0 of `TIFR0`. -/
def TOV0 : Nat := 0

/-- Timer/Counter0 overflow interrupt enable, bit 0 of `TIMSK0`. -/
def TOIE0 : Nat := 0

/-- Clock select bit 0 of `TCCR0B`. -/
def CS00 : Nat := 0

/-- Clock select bit 1 of `TCCR0B`. -/
def CS01 : Nat := 1

/-- Global interrupt enable, bit 7 of `SREG`. -/
def SREG_I : Nat := 7

/-! ## The state

The three private fields of `AVR_millis` together with the registers the
class reads or writes.  Registers are plain stored bytes. -/

structure AVR where
  timer0_overflow_count : Nat
  timer0_millis : Nat
  timer0_fract : Nat
  SREG : Nat
  TCNT0 : Nat
  TIFR0 : Nat
  TCCR0A : Nat
  TCCR0B : Nat
  TIMSK0 : Nat
  deriving DecidableEq, Repr

/-- The bitwise complement `~(1 << b)` restricted to a byte. -/
def notBit (b : Nat) : Nat := 255 ^^^ (1 <<< b)

/-! ## AVRmillis.cpp -/

/-- Constructor `AVR_millis::AVR_millis()`, run on the prior register contents. -/
def AVR_millis (s : AVR) : AVR :=
  -- timer0_overflow_count = timer0_millis = timer0_fract = 0;
  let s := { s with timer0_fract := 0 }
  let s := { s with timer0_millis := s.timer0_fract }
  let s := { s with timer0_overflow_count := s.timer0_millis }
  -- TCCR0A = TCCR0B = TIMSK0 = 0;
  let s := { s with TIMSK0 := 0 }
  let s := { s with TCCR0B := 0 }
  let s := { s with TCCR0A := 0 }
  -- TCCR0B |= ((1 << CS01) | (1 << CS00));
  let s := { s with TCCR0B := s.TCCR0B ||| ((1 <<< CS01) ||| (1 <<< CS00)) }
  -- TIFR0 &= ~(1 << TOV0);
  let s := { s with TIFR0 := s.TIFR0 &&& notBit TOV0 }
  -- TIMSK0 |= (1 << TOIE0);
  { s with TIMSK0 := s.TIMSK0 ||| (1 <<< TOIE0) }

/-- The instruction `cli()`: clear the global interrupt enable bit of `SREG`. -/
def cli (s : AVR) : AVR := { s with SREG := s.SREG &&& notBit SREG_I }

/-- Method `AVR_millis::millis()`: the returned value and the state it leaves. -/
def millis (s : AVR) : Nat × AVR :=
  -- uint8_t oldSREG = SREG; cli();
  let oldSREG := s.SREG
  let s := cli s
  -- m = timer0_millis;
  let m := s.timer0_millis
  -- SREG = oldSREG;
  let s := { s with SREG := oldSREG }
  (m, s)

/-- Method `AVR_millis::micros()`: the returned value and the state it leaves. -/
def micros (F_CPU : Nat) (s : AVR) : Nat × AVR :=
  -- uint8_t oldSREG = SREG; cli();
  let oldSREG := s.SREG
  let s := cli s
  -- m = timer0_overflow_count;
  let m := s.timer0_overflow_count
  -- uint8_t t = TCNT0;
  let t := s.TCNT0
  -- if ((TIFR0 & (1 << TOV0)) && (t < 255)) m++;
  let m := if s.TIFR0 &&& (1 <<< TOV0) ≠ 0 ∧ t < 255 then (m + 1) % 2 ^ 32 else m
  -- SREG = oldSREG;
  let s := { s with SREG := oldSREG }
  -- return ((m << 8) + t) * (64 / clockCyclesPerMicrosecond());
  ((((m <<< 8) % 2 ^ 32 + t) % 2 ^ 32 * (64 / clockCyclesPerMicrosecond F_CPU)) % 2 ^ 32, s)

/-- Method `AVR_millis::interrupt()`. -/
def interrupt (F_CPU : Nat) (s : AVR) : AVR :=
  -- uint32_t m = timer0_millis; uint8_t f = timer0_fract;
  let m := s.timer0_millis
  let f := s.timer0_fract
  -- m += MILLIS_INC;
  let m := (m + MILLIS_INC F_CPU) % 2 ^ 32
  -- f += FRACT_INC;
  let f := (f + FRACT_INC F_CPU) % 256
  -- if (f >= FRACT_MAX) { f -= FRACT_MAX; m += 1; }
  let leap := f ≥ FRACT_MAX
  let f := if leap then (f - FRACT_MAX) % 256 else f
  let m := if leap then (m + 1) % 2 ^ 32 else m
  -- timer0_fract = f; timer0_millis = m;
  let s := { s with timer0_fract := f }
  let s := { s with timer0_millis := m }
  -- timer0_overflow_count++;
  { s with timer0_overflow_count := (s.timer0_overflow_count + 1) % 2 ^ 32 }

/-- Inline accessor `getMillis()`. -/
def getMillis (s : AVR) : Nat := s.timer0_millis

/-- Inline accessor `getFract()`. -/
def getFract (s : AVR) : Nat := s.timer0_fract

/-- Inline mutator `setMillis(uint32_t m)`. -/
def setMillis (s : AVR) (m : Nat) : AVR := { s with timer0_millis := m }

/-- Inline mutator `setFract(uint8_t f)`. -/
def setFract (s : AVR) (f : Nat) : AVR := { s with timer0_fract := f }

/-- The state after `n` consecutive calls of `interrupt()`. -/
def interrupts (F_CPU : Nat) : Nat → AVR → AVR
  | 0, s => s
  | n + 1, s => interrupt F_CPU (interrupts F_CPU n s)

/-! ## The timer hardware

Timer/Counter0 in normal mode, as two kinds of event.  A `tick` advances
`TCNT0` modulo 256 and raises `TOV0` when the counter wraps from 255 to 0.  A
`service` is the overflow interrupt being taken: when `TOV0` is raised the
handler `ISR(TIMER0_OVF_vect)` runs `interrupt()` and the flag is cleared. -/

inductive Event where
  | tick
  | service
  deriving DecidableEq, Repr

/-- Is the overflow flag `TOV0` raised? -/
def pending (s : AVR) : Bool := s.TIFR0 &&& (1 <<< TOV0) ≠ 0

/-- One timer clock period. -/
def tick (s : AVR) : AVR :=
  let s' := { s with TCNT0 := (s.TCNT0 + 1) % 256 }
  if s.TCNT0 = 255 then { s' with TIFR0 := s'.TIFR0 ||| (1 <<< TOV0) } else s'

/-- The overflow interrupt is taken if it is pending. -/
def service (F_CPU : Nat) (s : AVR) : AVR :=
  if pending s then
    let s := interrupt F_CPU s
    { s with TIFR0 := s.TIFR0 &&& notBit TOV0 }
  else s

/-- One event of the hardware. -/
def step (F_CPU : Nat) (s : AVR) : Event → AVR
  | .tick => tick s
  | .service => service F_CPU s

/-- A sequence of events, oldest first. -/
def run (F_CPU : Nat) (s : AVR) (es : List Event) : AVR := es.foldl (step F_CPU) s

/-- Register and field contents used to instantiate the theorems below: an
arbitrary state left behind by earlier code. -/
def sample : AVR :=
  { timer0_overflow_count := 7, timer0_millis := 9, timer0_fract := 200,
    SREG := 128, TCNT0 := 0, TIFR0 := 1, TCCR0A := 3, TCCR0B := 5, TIMSK0 := 7 }

/-- Subtraction of two `uint32_t` values, as in `timeNow - timeToggled` of
`examples/main.cpp`. -/
def sub32 (a b : Nat) : Nat := (a + 2 ^ 32 - b) % 2 ^ 32

/-- Does the next call of `interrupt()` take the branch `if (f >= FRACT_MAX)`,
the one that adds a leap millisecond? -/
def leap (F_CPU : Nat) (s : AVR) : Bool :=
  (s.timer0_fract + FRACT_INC F_CPU) % 256 ≥ FRACT_MAX

/-- The number of leap milliseconds added by `n` consecutive calls of
`interrupt()`. -/
def leaps (F_CPU : Nat) : Nat → AVR → Nat
  | 0, _ => 0
  | n + 1, s => leaps F_CPU n s + if leap F_CPU (interrupts F_CPU n s) then 1 else 0

/-! ## Interrupts during a read

The ATmega328P is an 8-bit machine.  The assignment `m = timer0_millis` in
`millis()` is four byte loads, as the comment there says: "It's 32 bits wide
and cannot be done in one instruction."  Between any two instructions the
overflow interrupt can be taken, provided the global interrupt enable bit of
`SREG` is set. -/

/-- The instructions of `millis()`. -/
inductive Op where
  | save
  | disable
  | load (i : Nat)
  | restore
  deriving DecidableEq, Repr

/-- The locals of `millis()`: `oldSREG` and the four bytes of `m`, lowest
first. -/
structure Locals where
  oldSREG : Nat
  m0 : Nat
  m1 : Nat
  m2 : Nat
  m3 : Nat
  deriving DecidableEq, Repr

/-- The `uint32_t` value held in the four bytes of `m`. -/
def Locals.m (r : Locals) : Nat := r.m0 + 256 * r.m1 + 65536 * r.m2 + 16777216 * r.m3

/-- Byte `i` of a value, lowest first. -/
def byte (x i : Nat) : Nat := x / 256 ^ i % 256

/-- Store `b` in byte `i` of `m`. -/
def loadByte (r : Locals) (i b : Nat) : Locals :=
  match i with
  | 0 => { r with m0 := b }
  | 1 => { r with m1 := b }
  | 2 => { r with m2 := b }
  | _ => { r with m3 := b }

/-- One instruction of `millis()`. -/
def op (s : AVR) (r : Locals) : Op → AVR × Locals
  -- uint8_t oldSREG = SREG;
  | .save => (s, { r with oldSREG := s.SREG })
  -- cli();
  | .disable => (cli s, r)
  -- m = timer0_millis; one byte of it
  | .load i => (s, loadByte r i (byte s.timer0_millis i))
  -- SREG = oldSREG;
  | .restore => ({ s with SREG := r.oldSREG }, r)

/-- The body of `millis()` as instructions. -/
def millisOps : List Op :=
  [.save, .disable, .load 0, .load 1, .load 2, .load 3, .restore]

/-- Is the global interrupt enable bit of `SREG` set? -/
def enabled (s : AVR) : Bool := s.SREG &&& (1 <<< SREG_I) ≠ 0

/-- One overflow interrupt request.  With interrupts enabled
`ISR(TIMER0_OVF_vect)` runs `interrupt()` to completion before the next
instruction of the interrupted code; with interrupts disabled nothing runs
(the hardware holds the request until interrupts are enabled again, which here
is a later request). -/
def isr (F_CPU : Nat) (s : AVR) : AVR := if enabled s then interrupt F_CPU s else s

/-- The effect of `n` overflow interrupt requests in a row. -/
def isrs (F_CPU : Nat) : Nat → AVR → AVR
  | 0, s => s
  | n + 1, s => isr F_CPU (isrs F_CPU n s)

/-- Run instructions with interrupt requests in between: `irq` lists how many
requests arrive before the first instruction, before the second, and so on
(none once the list is exhausted). -/
def exec (F_CPU : Nat) : List Op → List Nat → AVR → Locals → AVR × Locals
  | [], _, s, r => (s, r)
  | o :: os, irq, s, r =>
    let p := op (isrs F_CPU (irq.headD 0) s) r o
    exec F_CPU os irq.tail p.1 p.2

/-- A call of `millis()` with interrupt requests arriving as listed in `irq`, the
locals starting with arbitrary contents `r`: the value returned and the state
left. -/
def millisInterleaved (F_CPU : Nat) (irq : List Nat) (s : AVR) (r : Locals) : Nat × AVR :=
  let p := exec F_CPU millisOps irq s r
  (p.2.m, p.1)

/-! ## Auxiliary lemmas -/

theorem FRACT_MAX_eq : FRACT_MAX = 125 := by decide

theorem FRACT_INC_le (F_CPU : Nat) : FRACT_INC F_CPU ≤ 124 := by
  unfold FRACT_INC
  rw [Nat.shiftRight_eq_div_pow]
  have h : MICROSECONDS_PER_TIMER0_OVERFLOW F_CPU % 1000 < 1000 := Nat.mod_lt _ (by decide)
  omega

theorem MILLIS_INC_16MHz : MILLIS_INC F_CPU_16MHz = 1 := by decide

theorem FRACT_INC_16MHz : FRACT_INC F_CPU_16MHz = 3 := by decide

theorem interrupt_fract (F_CPU : Nat) (s : AVR) :
    (interrupt F_CPU s).timer0_fract =
      if (s.timer0_fract + FRACT_INC F_CPU) % 256 ≥ FRACT_MAX
      then ((s.timer0_fract + FRACT_INC F_CPU) % 256 - FRACT_MAX) % 256
      else (s.timer0_fract + FRACT_INC F_CPU) % 256 := by
  rfl

theorem interrupt_millis (F_CPU : Nat) (s : AVR) :
    (interrupt F_CPU s).timer0_millis =
      if (s.timer0_fract + FRACT_INC F_CPU) % 256 ≥ FRACT_MAX
      then ((s.timer0_millis + MILLIS_INC F_CPU) % 2 ^ 32 + 1) % 2 ^ 32
      else (s.timer0_millis + MILLIS_INC F_CPU) % 2 ^ 32 := by
  rfl

theorem interrupt_overflow_count (F_CPU : Nat) (s : AVR) :
    (interrupt F_CPU s).timer0_overflow_count = (s.timer0_overflow_count + 1) % 2 ^ 32 := by
  rfl

theorem interrupt_registers (F_CPU : Nat) (s : AVR) :
    (interrupt F_CPU s).SREG = s.SREG ∧ (interrupt F_CPU s).TCNT0 = s.TCNT0 ∧
    (interrupt F_CPU s).TIFR0 = s.TIFR0 ∧ (interrupt F_CPU s).TCCR0A = s.TCCR0A ∧
    (interrupt F_CPU s).TCCR0B = s.TCCR0B ∧ (interrupt F_CPU s).TIMSK0 = s.TIMSK0 := by
  simp [interrupt]

/-- One call of `interrupt()` keeps the fraction below `FRACT_MAX`. -/
theorem interrupt_fract_lt (F_CPU : Nat) (s : AVR) (h : s.timer0_fract < FRACT_MAX) :
    (interrupt F_CPU s).timer0_fract < FRACT_MAX := by
  rw [interrupt_fract]
  have hi := FRACT_INC_le F_CPU
  rw [FRACT_MAX_eq] at h ⊢
  split <;> omega

theorem AVR_millis_fields (s : AVR) :
    (AVR_millis s).timer0_overflow_count = 0 ∧ (AVR_millis s).timer0_millis = 0 ∧
    (AVR_millis s).timer0_fract = 0 := by
  simp [AVR_millis]

/-- Closed form of the fraction and the millisecond count after `n` calls of
`interrupt()` at 16 MHz, from any state whose fraction is below 125. -/
theorem interrupts_16MHz (n : Nat) (s : AVR) (h : s.timer0_fract < 125)
    (hm : s.timer0_millis < 2 ^ 32) :
    (interrupts F_CPU_16MHz n s).timer0_fract = (s.timer0_fract + 3 * n) % 125 ∧
    (interrupts F_CPU_16MHz n s).timer0_millis =
      (s.timer0_millis + n + (s.timer0_fract + 3 * n) / 125) % 2 ^ 32 := by
  induction n with
  | zero =>
    refine ⟨?_, ?_⟩
    · show s.timer0_fract = _
      omega
    · show s.timer0_millis = _
      omega
  | succ n ih =>
    obtain ⟨hf, hm'⟩ := ih
    show (interrupt F_CPU_16MHz (interrupts F_CPU_16MHz n s)).timer0_fract = _ ∧
      (interrupt F_CPU_16MHz (interrupts F_CPU_16MHz n s)).timer0_millis = _
    rw [interrupt_fract, interrupt_millis, hf, hm',
      FRACT_INC_16MHz, MILLIS_INC_16MHz, FRACT_MAX_eq]
    refine ⟨?_, ?_⟩
    · split <;> omega
    · split <;> omega

/-- The overflow counter after `n` calls of `interrupt()`. -/
theorem interrupts_overflow_count (F_CPU n : Nat) (s : AVR)
    (hc : s.timer0_overflow_count < 2 ^ 32) :
    (interrupts F_CPU n s).timer0_overflow_count = (s.timer0_overflow_count + n) % 2 ^ 32 := by
  induction n with
  | zero =>
    show s.timer0_overflow_count = _
    omega
  | succ n ih =>
    show (interrupt F_CPU (interrupts F_CPU n s)).timer0_overflow_count = _
    rw [interrupt_overflow_count, ih]
    omega

/-- Repeated calls of `interrupt()` keep the fraction below `FRACT_MAX`. -/
theorem interrupts_fract_lt (F_CPU n : Nat) (s : AVR) (h : s.timer0_fract < FRACT_MAX) :
    (interrupts F_CPU n s).timer0_fract < FRACT_MAX := by
  induction n with
  | zero => exact h
  | succ n ih => exact interrupt_fract_lt F_CPU _ ih

theorem shiftLeft_8 (m : Nat) : m <<< 8 = m * 256 := by
  rw [Nat.shiftLeft_eq]

theorem micros_fst (F_CPU : Nat) (s : AVR) :
    (micros F_CPU s).1 =
      ((((if s.TIFR0 &&& (1 <<< TOV0) ≠ 0 ∧ s.TCNT0 < 255
          then (s.timer0_overflow_count + 1) % 2 ^ 32
          else s.timer0_overflow_count) <<< 8) % 2 ^ 32 + s.TCNT0) % 2 ^ 32 *
        (64 / clockCyclesPerMicrosecond F_CPU)) % 2 ^ 32 := by
  rfl

theorem pending_iff (s : AVR) : pending s = true ↔ s.TIFR0 &&& (1 <<< TOV0) ≠ 0 := by
  simp [pending]

theorem notBit_TOV0 : notBit TOV0 = 254 := by decide

theorem bit_TOV0 : 1 <<< TOV0 = 1 := by decide

theorem pending_clear (x : Nat) : (x &&& 254) &&& 1 = 0 := by
  rw [Nat.land_assoc]
  simp

theorem AVR_millis_pending (hw : AVR) : pending (AVR_millis hw) = false := by
  simp [pending, AVR_millis, notBit_TOV0, bit_TOV0, pending_clear]

theorem service_pending (F_CPU : Nat) (s : AVR) (h : pending s = true) :
    (service F_CPU s).TCNT0 = s.TCNT0 ∧ pending (service F_CPU s) = false ∧
    (service F_CPU s).timer0_overflow_count = (s.timer0_overflow_count + 1) % 2 ^ 32 := by
  obtain ⟨_, ht, _⟩ := interrupt_registers F_CPU s
  have hs : service F_CPU s =
      { interrupt F_CPU s with TIFR0 := (interrupt F_CPU s).TIFR0 &&& notBit TOV0 } := by
    unfold service
    rw [if_pos h]
  rw [hs]
  refine ⟨ht, ?_, interrupt_overflow_count F_CPU s⟩
  show decide (((interrupt F_CPU s).TIFR0 &&& notBit TOV0) &&& (1 <<< TOV0) ≠ 0) = false
  rw [notBit_TOV0, bit_TOV0, pending_clear]
  rfl

theorem run_append (F_CPU : Nat) (s : AVR) (es1 es2 : List Event) :
    run F_CPU s (es1 ++ es2) = run F_CPU (run F_CPU s es1) es2 := by
  simp [run]

theorem testBit_254 (i : Nat) (h0 : i ≠ 0) (h8 : i < 8) : Nat.testBit 254 i = true := by
  interval_cases i <;> first | exact absurd rfl h0 | decide

theorem testBit_3 (i : Nat) : Nat.testBit 3 i = true ↔ (i = 0 ∨ i = 1) := by
  constructor
  · intro h
    by_contra hc
    have h2 : 2 ≤ i := by omega
    have hlt : 3 < 2 ^ i :=
      calc 3 < 2 ^ 2 := by decide
        _ ≤ 2 ^ i := Nat.pow_le_pow_right (by decide) h2
    rw [Nat.testBit_lt_two_pow hlt] at h
    cases h
  · rintro (rfl | rfl) <;> decide

theorem testBit_1 (i : Nat) : Nat.testBit 1 i = true ↔ i = 0 := by
  constructor
  · intro h
    by_contra hc
    have h2 : 1 ≤ i := by omega
    have hlt : 1 < 2 ^ i :=
      calc 1 < 2 ^ 1 := by decide
        _ ≤ 2 ^ i := Nat.pow_le_pow_right (by decide) h2
    rw [Nat.testBit_lt_two_pow hlt] at h
    cases h
  · rintro rfl
    decide

theorem AVR_millis_registers (hw : AVR) :
    (AVR_millis hw).TCCR0A = 0 ∧ (AVR_millis hw).TCCR0B = 3 ∧ (AVR_millis hw).TIMSK0 = 1 ∧
    (AVR_millis hw).TIFR0 = hw.TIFR0 &&& 254 := by
  simp [AVR_millis, notBit_TOV0, CS00, CS01, TOIE0]

/-- At 16 MHz the leap milliseconds of `n` calls are the whole multiples of 125
that the fraction has passed. -/
theorem leaps_16MHz (n : Nat) (s : AVR) (h : s.timer0_fract < 125)
    (hm : s.timer0_millis < 2 ^ 32) :
    leaps F_CPU_16MHz n s = (s.timer0_fract + 3 * n) / 125 := by
  induction n with
  | zero =>
    show 0 = _
    omega
  | succ n ih =>
    show leaps F_CPU_16MHz n s +
      (if leap F_CPU_16MHz (interrupts F_CPU_16MHz n s) = true then 1 else 0) = _
    have hf := (interrupts_16MHz n s h hm).1
    simp only [leap, decide_eq_true_eq]
    rw [ih, hf, FRACT_INC_16MHz, FRACT_MAX_eq]
    split <;> omega

/-- At 16 MHz `micros()` returns `(((c' << 8) + t) * 4) mod 2 ^ 32`. -/
theorem micros_16MHz_value (s : AVR) :
    (micros F_CPU_16MHz s).1 =
      (((if pending s = true ∧ s.TCNT0 < 255
          then (s.timer0_overflow_count + 1) % 2 ^ 32
          else s.timer0_overflow_count) <<< 8 + s.TCNT0) * 4) % 2 ^ 32 := by
  have h4 : 64 / clockCyclesPerMicrosecond F_CPU_16MHz = 4 := by decide
  simp only [micros_fst, pending_iff, shiftLeft_8, h4]
  omega

theorem enabled_interrupt (F_CPU : Nat) (s : AVR) :
    enabled (interrupt F_CPU s) = enabled s := by
  unfold enabled
  rw [(interrupt_registers F_CPU s).1]

theorem enabled_interrupts (F_CPU n : Nat) (s : AVR) :
    enabled (interrupts F_CPU n s) = enabled s := by
  induction n with
  | zero => rfl
  | succ n ih =>
    show enabled (interrupt F_CPU (interrupts F_CPU n s)) = _
    rw [enabled_interrupt, ih]

theorem isrs_enabled (F_CPU n : Nat) (s : AVR) (h : enabled s = true) :
    isrs F_CPU n s = interrupts F_CPU n s := by
  induction n with
  | zero => rfl
  | succ n ih =>
    show isr F_CPU (isrs F_CPU n s) = interrupt F_CPU (interrupts F_CPU n s)
    rw [ih, isr, enabled_interrupts, h]
    rfl

theorem isrs_disabled (F_CPU n : Nat) (s : AVR) (h : enabled s = false) :
    isrs F_CPU n s = s := by
  induction n with
  | zero => rfl
  | succ n ih =>
    show isr F_CPU (isrs F_CPU n s) = s
    rw [ih, isr, h]
    rfl

theorem enabled_cli (s : AVR) : enabled (cli s) = false := by
  have h : (s.SREG &&& 127) &&& 128 = 0 := by
    rw [Nat.land_assoc]
    have e : (127 &&& 128 : Nat) = 0 := by decide
    rw [e]
    exact Nat.and_zero s.SREG
  have h127 : notBit SREG_I = 127 := by decide
  have h128 : 1 <<< SREG_I = 128 := by decide
  simp [enabled, cli, h127, h128, h]

theorem isrs_cli (F_CPU n : Nat) (s : AVR) : isrs F_CPU n (cli s) = cli s :=
  isrs_disabled F_CPU n (cli s) (enabled_cli s)

theorem interrupts_add (F_CPU a b : Nat) (s : AVR) :
    interrupts F_CPU b (interrupts F_CPU a s) = interrupts F_CPU (a + b) s := by
  induction b with
  | zero => rfl
  | succ b ih =>
    show interrupt F_CPU (interrupts F_CPU b (interrupts F_CPU a s)) =
      interrupt F_CPU (interrupts F_CPU (a + b) s)
    rw [ih]

theorem interrupts_millis_lt (F_CPU n : Nat) (s : AVR) (h : s.timer0_millis < 2 ^ 32) :
    (interrupts F_CPU n s).timer0_millis < 2 ^ 32 := by
  cases n with
  | zero => exact h
  | succ n =>
    show (interrupt F_CPU (interrupts F_CPU n s)).timer0_millis < 2 ^ 32
    rw [interrupt_millis]
    split <;> omega

theorem bytes_value (x : Nat) (h : x < 2 ^ 32) :
    byte x 0 + 256 * byte x 1 + 65536 * byte x 2 + 16777216 * byte x 3 = x := by
  simp only [byte]
  norm_num
  omega

/-- The instruction-level `millis()` reads all four bytes in the state reached
by the requests that arrive before `cli()`. -/
theorem millisInterleaved_fst (F_CPU : Nat) (irq : List Nat) (s : AVR) (r : Locals) :
    (millisInterleaved F_CPU irq s r).1 =
      byte (isrs F_CPU (irq.tail.headD 0) (isrs F_CPU (irq.headD 0) s)).timer0_millis 0 +
      256 * byte (isrs F_CPU (irq.tail.headD 0) (isrs F_CPU (irq.headD 0) s)).timer0_millis 1 +
      65536 * byte (isrs F_CPU (irq.tail.headD 0) (isrs F_CPU (irq.headD 0) s)).timer0_millis 2 +
      16777216 *
        byte (isrs F_CPU (irq.tail.headD 0) (isrs F_CPU (irq.headD 0) s)).timer0_millis 3 := by
  simp only [millisInterleaved, millisOps, exec, op, isrs_cli, loadByte, Locals.m]
  rfl

theorem head_add_head_le_sum (irq : List Nat) : irq.headD 0 + irq.tail.headD 0 ≤ irq.sum := by
  match irq with
  | [] => simp
  | [a] => simp
  | a :: b :: t =>
    simp only [List.headD_cons, List.tail_cons, List.sum_cons]
    omega

/-- With no interrupt request the instruction-level `millis()` is `millis()`. -/
theorem millisInterleaved_quiet (F_CPU : Nat) (s : AVR) (r : Locals)
    (hm : s.timer0_millis < 2 ^ 32) : millisInterleaved F_CPU [] s r = millis s := by
  have h1 : (millisInterleaved F_CPU [] s r).1 = (millis s).1 := by
    rw [millisInterleaved_fst]
    exact bytes_value s.timer0_millis hm
  have h2 : (millisInterleaved F_CPU [] s r).2 = (millis s).2 := by
    simp only [millisInterleaved, millisOps, exec, op, isrs_cli, loadByte]
    rfl
  exact Prod.ext h1 h2

/-- The same four loads without `cli()` can tear: with `timer0_millis = 255` and
an overflow interrupt taken after the first load, which makes it 257, the bytes
read are `0xFF` and `0x01` and the value assembled is 511. -/
theorem unguarded_read_tears :
    ({ sample with timer0_millis := 255, timer0_fract := 123 } : AVR).timer0_millis = 255 ∧
    (interrupt F_CPU_16MHz
      { sample with timer0_millis := 255, timer0_fract := 123 }).timer0_millis = 257 ∧
    (exec F_CPU_16MHz [Op.save, Op.load 0, Op.load 1, Op.load 2, Op.load 3, Op.restore]
      [0, 0, 1] { sample with timer0_millis := 255, timer0_fract := 123 }
      { oldSREG := 0, m0 := 0, m1 := 0, m2 := 0, m3 := 0 }).2.m = 511 := by
  decide

/-! ## Constants -/

/-- Claim C5. With `F_CPU = 16000000` the macros of `defines.h` evaluate to
`clockCyclesPerMicrosecond() = 16`, `MICROSECONDS_PER_TIMER0_OVERFLOW = 1024`,
`MILLIS_INC = 1`, `FRACT_INC = 3` and `FRACT_MAX = 125`. -/
theorem constants_16MHz :
    clockCyclesPerMicrosecond 16000000 = 16 ∧
    MICROSECONDS_PER_TIMER0_OVERFLOW 16000000 = 1024 ∧
    MILLIS_INC 16000000 = 1 ∧
    FRACT_INC 16000000 = 3 ∧
    FRACT_MAX = 125 := by
  decide

/-- Claim C6, as stated, fails.  At 16 MHz the overflow period is 1024 microseconds,
not 16384, so `MILLIS_INC` is 1 and `FRACT_INC` is 3, not 16 and 48. -/
theorem defaults_16MHz_not_as_documented :
    MICROSECONDS_PER_TIMER0_OVERFLOW F_CPU_16MHz = 1024 ∧
    MILLIS_INC F_CPU_16MHz = 1 ∧ FRACT_INC F_CPU_16MHz = 3 ∧
    ¬ (MICROSECONDS_PER_TIMER0_OVERFLOW F_CPU_16MHz = 16384 ∧
      MILLIS_INC F_CPU_16MHz = 16 ∧ FRACT_INC F_CPU_16MHz = 48) := by
  decide

/-- Claim C6, amended.  At 16 MHz with prescaler 64 the overflow period is 1024
microseconds, so `MILLIS_INC` is 1 with a remainder of 24 microseconds and
`FRACT_INC` is 24 / 8 = 3.  The documented values belong to a 1 MHz clock:
there the period is 16384 microseconds, `MILLIS_INC` is 16 with a remainder of
384 microseconds and `FRACT_INC` is 384 / 8 = 48. -/
theorem documented_defaults :
    (MICROSECONDS_PER_TIMER0_OVERFLOW F_CPU_16MHz = 1024 ∧
      MILLIS_INC F_CPU_16MHz = 1 ∧
      MICROSECONDS_PER_TIMER0_OVERFLOW F_CPU_16MHz % 1000 = 24 ∧
      FRACT_INC F_CPU_16MHz = 24 / 8 ∧ FRACT_INC F_CPU_16MHz = 3) ∧
    (MICROSECONDS_PER_TIMER0_OVERFLOW 1000000 = 16384 ∧
      MILLIS_INC 1000000 = 16 ∧
      MICROSECONDS_PER_TIMER0_OVERFLOW 1000000 % 1000 = 384 ∧
      FRACT_INC 1000000 = 384 / 8 ∧ FRACT_INC 1000000 = 48) := by
  decide

/-! ## The millisecond accumulator -/

/-- Claim C1. At 16 MHz (overflow period 1024 microseconds), for every `N` with
`N * 1024 / 1000 < 2 ^ 32`, the value of `timer0_millis` after `N` calls of
`interrupt()` on a freshly constructed state differs from
`N * 1024 / 1000` by at most 1. -/
theorem fixed_point_exactness (hw : AVR) (N : Nat) (h : N * 1024 / 1000 < 2 ^ 32) :
    (interrupts F_CPU_16MHz N (AVR_millis hw)).timer0_millis ≤ N * 1024 / 1000 + 1 ∧
    N * 1024 / 1000 ≤ (interrupts F_CPU_16MHz N (AVR_millis hw)).timer0_millis + 1 := by
  obtain ⟨_, hm0, hf0⟩ := AVR_millis_fields hw
  have hm := (interrupts_16MHz N (AVR_millis hw) (by omega) (by omega)).2
  rw [hm0, hf0] at hm
  have e : N * 1024 / 1000 = 0 + N + (0 + 3 * N) / 125 := by omega
  rw [hm, ← e, Nat.mod_eq_of_lt h]
  omega

/-- Instance of C1 at `N = 1000`. -/
theorem fixed_point_exactness_witness :
    1000 * 1024 / 1000 < 2 ^ 32 ∧
    (interrupts F_CPU_16MHz 1000 (AVR_millis sample)).timer0_millis ≤ 1000 * 1024 / 1000 + 1 ∧
    1000 * 1024 / 1000 ≤ (interrupts F_CPU_16MHz 1000 (AVR_millis sample)).timer0_millis + 1 :=
  ⟨by decide, fixed_point_exactness sample 1000 (by decide)⟩

/-- Claim C2. In every state reachable from the constructed state by any number of
calls of `interrupt()`, `timer0_fract < FRACT_MAX = 125`; this holds for every
clock speed `F_CPU`. -/
theorem fract_bound_invariant (F_CPU : Nat) (hw : AVR) (n : Nat) :
    0 ≤ (interrupts F_CPU n (AVR_millis hw)).timer0_fract ∧
    (interrupts F_CPU n (AVR_millis hw)).timer0_fract < FRACT_MAX ∧ FRACT_MAX = 125 := by
  refine ⟨Nat.zero_le _, interrupts_fract_lt F_CPU n _ ?_, FRACT_MAX_eq⟩
  rw [(AVR_millis_fields hw).2.2]
  decide

/-- Claim C7. At 16 MHz, from a state with `timer0_fract = f < 125` in which
`millis()` returns `m0`, if `millis()` returns `m1` after `n` further calls of
`interrupt()`, the `uint32_t` difference `m1 - m0` is
`(n + (f + 3 * n) / 125) mod 2 ^ 32`; it is the number of milliseconds added
whenever that number is below `2 ^ 32`, wrapped counter or not. -/
theorem elapsed_wraparound_safe (s : AVR) (n : Nat) (hf : s.timer0_fract < 125)
    (hm : s.timer0_millis < 2 ^ 32) :
    sub32 (millis (interrupts F_CPU_16MHz n s)).1 (millis s).1 =
      (n + (s.timer0_fract + 3 * n) / 125) % 2 ^ 32 ∧
    (n + (s.timer0_fract + 3 * n) / 125 < 2 ^ 32 →
      sub32 (millis (interrupts F_CPU_16MHz n s)).1 (millis s).1 =
        n + (s.timer0_fract + 3 * n) / 125) := by
  have h1 : (millis (interrupts F_CPU_16MHz n s)).1 =
      (interrupts F_CPU_16MHz n s).timer0_millis := rfl
  have h2 : (millis s).1 = s.timer0_millis := rfl
  have key : sub32 (millis (interrupts F_CPU_16MHz n s)).1 (millis s).1 =
      (n + (s.timer0_fract + 3 * n) / 125) % 2 ^ 32 := by
    rw [h1, h2, (interrupts_16MHz n s hf hm).2, sub32]
    omega
  refine ⟨key, fun hlt => ?_⟩
  rw [key, Nat.mod_eq_of_lt hlt]

/-- Instance of C7 in which `timer0_millis` wraps: 100 overflows from
`timer0_millis = 2 ^ 32 - 6` and `timer0_fract = 120` add 103 milliseconds. -/
theorem elapsed_wraparound_safe_witness :
    sub32
      (millis (interrupts F_CPU_16MHz 100
        { sample with timer0_millis := 4294967290, timer0_fract := 120 })).1
      (millis { sample with timer0_millis := 4294967290, timer0_fract := 120 }).1 = 103 :=
  (elapsed_wraparound_safe { sample with timer0_millis := 4294967290, timer0_fract := 120 } 100
    (by decide) (by decide)).2 (by decide)

/-- Claim C9, as stated, fails.  After `setFract(250)` one call of `interrupt()` at
16 MHz leaves `timer0_fract = 128`, which is not below `FRACT_MAX`. -/
theorem setFract_escapes_bound :
    (setFract sample 250).timer0_fract < 256 ∧
    (interrupt F_CPU_16MHz (setFract sample 250)).timer0_fract = 128 ∧
    ¬ ((interrupt F_CPU_16MHz (setFract sample 250)).timer0_fract < FRACT_MAX) := by
  decide

/-- Claim C9, amended.  The state after one call of `interrupt()` has
`timer0_fract < FRACT_MAX` exactly when `(timer0_fract + FRACT_INC) mod 256`
was below 250.  That is the case for every state with
`timer0_fract < FRACT_MAX`; at 16 MHz, among the 8-bit values that `setFract()`
can force, it fails exactly for 247 to 252. -/
theorem fract_after_update (F_CPU : Nat) (s : AVR) :
    ((interrupt F_CPU s).timer0_fract < FRACT_MAX ↔
      (s.timer0_fract + FRACT_INC F_CPU) % 256 < 250) ∧
    (s.timer0_fract < FRACT_MAX → (interrupt F_CPU s).timer0_fract < FRACT_MAX) ∧
    (s.timer0_fract < 256 →
      ((interrupt F_CPU_16MHz s).timer0_fract < FRACT_MAX ↔
        (s.timer0_fract < 247 ∨ 252 < s.timer0_fract))) := by
  refine ⟨?_, interrupt_fract_lt F_CPU s, fun h => ?_⟩
  · rw [interrupt_fract, FRACT_MAX_eq]
    split <;> omega
  · rw [interrupt_fract, FRACT_INC_16MHz, FRACT_MAX_eq]
    split <;> omega

/-- Instance of the amended C9 at `setFract(124)`. -/
theorem fract_after_update_witness :
    (setFract sample 124).timer0_fract < FRACT_MAX ∧
    (interrupt F_CPU_16MHz (setFract sample 124)).timer0_fract < FRACT_MAX :=
  ⟨by decide, (fract_after_update F_CPU_16MHz (setFract sample 124)).2.1 (by decide)⟩

/-! ## The readers -/

/-- Claim C8. `millis()` returns the current `timer0_millis` and leaves the three
fields and `SREG` as they were, whatever `SREG` held on entry; indeed it leaves
the whole state as it was.  `micros()` leaves the state as it was too. -/
theorem millis_pure_read (F_CPU : Nat) (s : AVR) :
    (millis s).1 = s.timer0_millis ∧
    ((millis s).2.timer0_overflow_count = s.timer0_overflow_count ∧
      (millis s).2.timer0_millis = s.timer0_millis ∧
      (millis s).2.timer0_fract = s.timer0_fract ∧
      (millis s).2.SREG = s.SREG ∧ (millis s).2 = s) ∧
    ((micros F_CPU s).2.timer0_overflow_count = s.timer0_overflow_count ∧
      (micros F_CPU s).2.timer0_millis = s.timer0_millis ∧
      (micros F_CPU s).2.timer0_fract = s.timer0_fract ∧
      (micros F_CPU s).2.SREG = s.SREG ∧ (micros F_CPU s).2 = s) :=
  ⟨rfl, ⟨rfl, rfl, rfl, rfl, rfl⟩, ⟨rfl, rfl, rfl, rfl, rfl⟩⟩


/-- Claim C10. Let `millis()` run as its instructions, the 32-bit read being
four byte loads, with overflow interrupts requested at any points of the call
and any number of times, each taken at once if the global interrupt enable bit
is set.  From a state whose `timer0_millis` is a `uint32_t`, the value returned
is the whole `timer0_millis` as left by the updates that ran before `cli()`.
With a single update it is the value before the update or the value after it,
never a mixture of bytes from both. -/
theorem read_atomicity (F_CPU : Nat) (irq : List Nat) (s : AVR) (r : Locals)
    (hm : s.timer0_millis < 2 ^ 32) :
    (millisInterleaved F_CPU irq s r).1 =
      (interrupts F_CPU
        (if enabled s = true then irq.headD 0 + irq.tail.headD 0 else 0) s).timer0_millis ∧
    (irq.sum ≤ 1 →
      (millisInterleaved F_CPU irq s r).1 = s.timer0_millis ∨
      (millisInterleaved F_CPU irq s r).1 = (interrupt F_CPU s).timer0_millis) := by
  have key : (millisInterleaved F_CPU irq s r).1 =
      (interrupts F_CPU
        (if enabled s = true then irq.headD 0 + irq.tail.headD 0 else 0) s).timer0_millis := by
    rw [millisInterleaved_fst]
    cases he : enabled s with
    | true =>
      have he' : enabled (interrupts F_CPU (irq.headD 0) s) = true := by
        rw [enabled_interrupts, he]
      rw [isrs_enabled F_CPU _ s he, isrs_enabled F_CPU _ _ he', interrupts_add]
      simp only [if_true]
      exact bytes_value _ (interrupts_millis_lt F_CPU _ s hm)
    | false =>
      rw [isrs_disabled F_CPU _ s he, isrs_disabled F_CPU _ s he]
      simp only [Bool.false_eq_true, if_false]
      exact bytes_value _ hm
  refine ⟨key, fun h1 => ?_⟩
  rw [key]
  have hle := head_add_head_le_sum irq
  split
  · have hk : irq.headD 0 + irq.tail.headD 0 = 0 ∨ irq.headD 0 + irq.tail.headD 0 = 1 := by
      omega
    rcases hk with hk | hk
    · rw [hk]
      exact Or.inl rfl
    · rw [hk]
      exact Or.inr rfl
  · exact Or.inl rfl

/-- Instance of C10: `timer0_millis = 255`, an update to 257 requested after the
first byte has been loaded; `millis()` returns 255. -/
theorem read_atomicity_witness :
    (millisInterleaved F_CPU_16MHz [0, 0, 0, 1]
      { sample with timer0_millis := 255, timer0_fract := 123 }
      { oldSREG := 0, m0 := 9, m1 := 9, m2 := 9, m3 := 9 }).1 = 255 ∧
    ((millisInterleaved F_CPU_16MHz [0, 0, 0, 1]
        { sample with timer0_millis := 255, timer0_fract := 123 }
        { oldSREG := 0, m0 := 9, m1 := 9, m2 := 9, m3 := 9 }).1 =
        ({ sample with timer0_millis := 255, timer0_fract := 123 } : AVR).timer0_millis ∨
      (millisInterleaved F_CPU_16MHz [0, 0, 0, 1]
        { sample with timer0_millis := 255, timer0_fract := 123 }
        { oldSREG := 0, m0 := 9, m1 := 9, m2 := 9, m3 := 9 }).1 =
        (interrupt F_CPU_16MHz
          { sample with timer0_millis := 255, timer0_fract := 123 }).timer0_millis) :=
  ⟨by decide,
    (read_atomicity F_CPU_16MHz [0, 0, 0, 1]
      { sample with timer0_millis := 255, timer0_fract := 123 }
      { oldSREG := 0, m0 := 9, m1 := 9, m2 := 9, m3 := 9 } (by decide)).2 (by decide)⟩

/-- Claim C3. At 16 MHz `micros()` returns `(((c' << 8) + t) * 4) mod 2 ^ 32`, where
`t` is `TCNT0` and `c'` is `timer0_overflow_count + 1` (mod `2 ^ 32`) if `TOV0`
is raised and `t < 255`, and `timer0_overflow_count` otherwise.  With an
overflow count of 2, `TCNT0 = 100` and the flag clear it returns 2448. -/
theorem micros_interpolation (s : AVR) :
    (micros F_CPU_16MHz s).1 =
      (((if pending s = true ∧ s.TCNT0 < 255
          then (s.timer0_overflow_count + 1) % 2 ^ 32
          else s.timer0_overflow_count) <<< 8 + s.TCNT0) * 4) % 2 ^ 32 ∧
    (s.timer0_overflow_count = 2 → s.TCNT0 = 100 → pending s = false →
      (micros F_CPU_16MHz s).1 = 2448) := by
  have key : (micros F_CPU_16MHz s).1 =
      (((if pending s = true ∧ s.TCNT0 < 255
          then (s.timer0_overflow_count + 1) % 2 ^ 32
          else s.timer0_overflow_count) <<< 8 + s.TCNT0) * 4) % 2 ^ 32 := by
    have h4 : 64 / clockCyclesPerMicrosecond F_CPU_16MHz = 4 := by decide
    simp only [micros_fst, pending_iff, shiftLeft_8, h4]
    omega
  refine ⟨key, ?_⟩
  intro hc ht hp
  rw [key, hc, ht, hp]
  decide

/-- Instance of C3 at the documented example. -/
theorem micros_interpolation_witness :
    (micros F_CPU_16MHz { sample with timer0_overflow_count := 2, TCNT0 := 100, TIFR0 := 6 }).1
      = 2448 :=
  (micros_interpolation
    { sample with timer0_overflow_count := 2, TCNT0 := 100, TIFR0 := 6 }).2 rfl rfl (by decide)

/-- Claim C11. After the constructor has run on any prior register contents,
the three fields are 0, `TCCR0A` is 0, `TCCR0B` has exactly the bits `CS01` and
`CS00` set, `TIMSK0` has exactly the bit `TOIE0` set, and in `TIFR0` the bit
`TOV0` is clear while each other bit of the byte is as before. -/
theorem construction (hw : AVR) :
    ((AVR_millis hw).timer0_overflow_count = 0 ∧ (AVR_millis hw).timer0_millis = 0 ∧
      (AVR_millis hw).timer0_fract = 0) ∧
    (AVR_millis hw).TCCR0A = 0 ∧
    ((AVR_millis hw).TCCR0B = 2 ^ CS01 + 2 ^ CS00 ∧
      ∀ i, (AVR_millis hw).TCCR0B.testBit i = true ↔ (i = CS00 ∨ i = CS01)) ∧
    ((AVR_millis hw).TIMSK0 = 2 ^ TOIE0 ∧
      ∀ i, (AVR_millis hw).TIMSK0.testBit i = true ↔ i = TOIE0) ∧
    ((AVR_millis hw).TIFR0.testBit TOV0 = false ∧ pending (AVR_millis hw) = false ∧
      ∀ i, i ≠ TOV0 → i < 8 → (AVR_millis hw).TIFR0.testBit i = hw.TIFR0.testBit i) := by
  obtain ⟨ha, hb, hm, hf⟩ := AVR_millis_registers hw
  refine ⟨AVR_millis_fields hw, ha, ⟨?_, fun i => ?_⟩, ⟨?_, fun i => ?_⟩, ?_, AVR_millis_pending hw,
    fun i h0 h8 => ?_⟩
  · rw [hb]
    decide
  · rw [hb]
    exact testBit_3 i
  · rw [hm]
    decide
  · rw [hm]
    exact testBit_1 i
  · rw [hf, Nat.testBit_land]
    have : Nat.testBit 254 TOV0 = false := by decide
    rw [this, Bool.and_false]
  · rw [hf, Nat.testBit_land, testBit_254 i h0 h8, Bool.and_true]

/-- Instance of C11: with every flag of `TIFR0` raised, the constructor leaves bit
`OCF0A` (bit 1) raised. -/
theorem construction_witness :
    (AVR_millis { sample with TIFR0 := 7 }).TIFR0.testBit 1 =
      ({ sample with TIFR0 := 7 } : AVR).TIFR0.testBit 1 :=
  (construction { sample with TIFR0 := 7 }).2.2.2.2.2.2 1 (by decide) (by decide)

/-- Claim C12. From the constructed state at 16 MHz, after 41 calls of
`interrupt()` no leap millisecond has been added (`timer0_millis = 41`,
`timer0_fract = 123`); after 42 calls one has: `timer0_millis = 43`, which is
more than `42 * MILLIS_INC`, and `timer0_fract = 1`. -/
theorem first_leap_millisecond (hw : AVR) :
    ((interrupts F_CPU_16MHz 41 (AVR_millis hw)).timer0_millis = 41 ∧
      (interrupts F_CPU_16MHz 41 (AVR_millis hw)).timer0_fract = 123 ∧
      (interrupts F_CPU_16MHz 41 (AVR_millis hw)).timer0_millis = 41 * MILLIS_INC F_CPU_16MHz) ∧
    ((interrupts F_CPU_16MHz 42 (AVR_millis hw)).timer0_millis = 43 ∧
      (interrupts F_CPU_16MHz 42 (AVR_millis hw)).timer0_fract = 1 ∧
      (interrupts F_CPU_16MHz 42 (AVR_millis hw)).timer0_millis > 42 * MILLIS_INC F_CPU_16MHz) := by
  obtain ⟨_, hm0, hf0⟩ := AVR_millis_fields hw
  obtain ⟨f41, m41⟩ := interrupts_16MHz 41 (AVR_millis hw) (by omega) (by omega)
  obtain ⟨f42, m42⟩ := interrupts_16MHz 42 (AVR_millis hw) (by omega) (by omega)
  rw [hm0, hf0] at m41 m42
  rw [hf0] at f41 f42
  rw [f41, m41, f42, m42, MILLIS_INC_16MHz]
  decide

/-- Claim C13. `setMillis(m)` followed by `getMillis()` returns `m` and leaves
`timer0_fract` and `timer0_overflow_count` as they were; `setFract(f)` followed
by `getFract()` returns `f` and leaves `timer0_millis` and
`timer0_overflow_count` as they were. -/
theorem accessors_round_trip (s : AVR) (m f : Nat) :
    (getMillis (setMillis s m) = m ∧
      (setMillis s m).timer0_fract = s.timer0_fract ∧
      (setMillis s m).timer0_overflow_count = s.timer0_overflow_count) ∧
    (getFract (setFract s f) = f ∧
      (setFract s f).timer0_millis = s.timer0_millis ∧
      (setFract s f).timer0_overflow_count = s.timer0_overflow_count) :=
  ⟨⟨rfl, rfl, rfl⟩, ⟨rfl, rfl, rfl⟩⟩

/-! ## One overflow event -/

/-- Claim C14. From a state with `timer0_fract = f < FRACT_MAX`, `interrupt()`
leaves `timer0_overflow_count + 1` (mod `2 ^ 32`); if
`f + FRACT_INC >= FRACT_MAX` it leaves `timer0_fract = f + FRACT_INC - FRACT_MAX`
and `timer0_millis + MILLIS_INC + 1` (mod `2 ^ 32`), otherwise
`timer0_fract = f + FRACT_INC` and `timer0_millis + MILLIS_INC` (mod `2 ^ 32`).
So `timer0_millis` does not decrease unless it wraps. -/
theorem interrupt_postcondition (F_CPU : Nat) (s : AVR) (hf : s.timer0_fract < FRACT_MAX) :
    (interrupt F_CPU s).timer0_overflow_count = (s.timer0_overflow_count + 1) % 2 ^ 32 ∧
    (s.timer0_fract + FRACT_INC F_CPU ≥ FRACT_MAX →
      (interrupt F_CPU s).timer0_fract = s.timer0_fract + FRACT_INC F_CPU - FRACT_MAX ∧
      (interrupt F_CPU s).timer0_millis = (s.timer0_millis + MILLIS_INC F_CPU + 1) % 2 ^ 32) ∧
    (s.timer0_fract + FRACT_INC F_CPU < FRACT_MAX →
      (interrupt F_CPU s).timer0_fract = s.timer0_fract + FRACT_INC F_CPU ∧
      (interrupt F_CPU s).timer0_millis = (s.timer0_millis + MILLIS_INC F_CPU) % 2 ^ 32) ∧
    (s.timer0_millis + MILLIS_INC F_CPU + 1 < 2 ^ 32 →
      s.timer0_millis ≤ (interrupt F_CPU s).timer0_millis) := by
  have hi := FRACT_INC_le F_CPU
  rw [interrupt_fract, interrupt_millis, FRACT_MAX_eq] at *
  refine ⟨interrupt_overflow_count F_CPU s, fun h => ?_, fun h => ?_, fun h => ?_⟩
  · constructor <;> split <;> omega
  · constructor <;> split <;> omega
  · split <;> omega

/-- Instance of C14 at 16 MHz: the 42nd overflow (`timer0_fract = 123`) adds a leap
millisecond. -/
theorem interrupt_postcondition_witness :
    (interrupt F_CPU_16MHz { sample with timer0_fract := 123 }).timer0_fract =
      123 + FRACT_INC F_CPU_16MHz - FRACT_MAX ∧
    (interrupt F_CPU_16MHz { sample with timer0_fract := 123 }).timer0_millis =
      (9 + MILLIS_INC F_CPU_16MHz + 1) % 2 ^ 32 :=
  (interrupt_postcondition F_CPU_16MHz { sample with timer0_fract := 123 } (by decide)).2.1
    (by decide)

/-- Claim C19. For every `F_CPU` of at least 1 MHz the macros do not divide by
zero and `FRACT_INC <= 124 < FRACT_MAX`.  So from a state with
`timer0_fract = f < 125` the sum `f + FRACT_INC` is at most 248 and is not
changed by the truncation to 8 bits, `interrupt()` adds `MILLIS_INC` or
`MILLIS_INC + 1` to `timer0_millis`, and the new `timer0_fract` is below 125. -/
theorem fract_arithmetic_fits_byte (F_CPU : Nat) (hF : 1000000 ≤ F_CPU) (s : AVR)
    (hf : s.timer0_fract < 125) :
    0 < clockCyclesPerMicrosecond F_CPU ∧
    FRACT_INC F_CPU ≤ 124 ∧ FRACT_INC F_CPU < FRACT_MAX ∧
    s.timer0_fract + FRACT_INC F_CPU ≤ 248 ∧
    (s.timer0_fract + FRACT_INC F_CPU) % 256 = s.timer0_fract + FRACT_INC F_CPU ∧
    ((interrupt F_CPU s).timer0_millis = (s.timer0_millis + MILLIS_INC F_CPU) % 2 ^ 32 ∨
      (interrupt F_CPU s).timer0_millis = (s.timer0_millis + MILLIS_INC F_CPU + 1) % 2 ^ 32) ∧
    (interrupt F_CPU s).timer0_fract < 125 := by
  have hi := FRACT_INC_le F_CPU
  have hc : 0 < clockCyclesPerMicrosecond F_CPU := Nat.div_pos hF (by decide)
  rw [interrupt_fract, interrupt_millis, FRACT_MAX_eq]
  refine ⟨hc, hi, by omega, by omega, by omega, ?_, ?_⟩
  · split
    · right
      omega
    · left
      rfl
  · split <;> omega

/-- Instance of C19 at 8 MHz, where `FRACT_INC` is 6. -/
theorem fract_arithmetic_fits_byte_witness :
    FRACT_INC 8000000 = 6 ∧
    (120 + FRACT_INC 8000000) % 256 = 120 + FRACT_INC 8000000 ∧
    (interrupt 8000000 { sample with timer0_fract := 120 }).timer0_fract < 125 :=
  ⟨by decide,
    (fract_arithmetic_fits_byte 8000000 (by decide) { sample with timer0_fract := 120 }
      (by decide)).2.2.2.2.1,
    (fract_arithmetic_fits_byte 8000000 (by decide) { sample with timer0_fract := 120 }
      (by decide)).2.2.2.2.2.2⟩

/-! ## Relations between the counters -/

/-- Claim C15. With `TOV0` raised and `TCNT0 < 255`, `micros()` returns what it
returns with the flag clear and the overflow count one higher, which is what it
returns once `interrupt()` has processed the pending overflow.  With `TOV0`
raised and `TCNT0 = 255` it returns, at 16 MHz, the uncompensated
`((c << 8) + 255) * 4` mod `2 ^ 32`. -/
theorem pending_overflow_compensation (F_CPU : Nat) (s : AVR) :
    (pending s = true → s.TCNT0 < 255 →
      (micros F_CPU s).1 =
        (micros F_CPU { s with timer0_overflow_count := s.timer0_overflow_count + 1,
                               TIFR0 := s.TIFR0 &&& notBit TOV0 }).1 ∧
      (micros F_CPU s).1 = (micros F_CPU (service F_CPU s)).1) ∧
    (pending s = true → s.TCNT0 = 255 →
      (micros F_CPU_16MHz s).1 = ((s.timer0_overflow_count <<< 8 + 255) * 4) % 2 ^ 32) := by
  refine ⟨fun hp ht => ?_, fun hp ht => ?_⟩
  · obtain ⟨e1, e2, e3⟩ := service_pending F_CPU s hp
    have hs : (service F_CPU s).TIFR0 &&& (1 <<< TOV0) = 0 := by
      simpa [pending] using e2
    have hq : s.TIFR0 &&& (1 <<< TOV0) ≠ 0 := (pending_iff s).1 hp
    constructor
    · simp only [micros_fst, notBit_TOV0, bit_TOV0, pending_clear, shiftLeft_8]
      rw [bit_TOV0] at hq
      simp only [hq, ht, ne_eq, not_true_eq_false, not_false_eq_true, and_self, false_and,
        if_true, if_false]
      have e : (s.timer0_overflow_count + 1) % 2 ^ 32 * 256 % 2 ^ 32 =
          (s.timer0_overflow_count + 1) * 256 % 2 ^ 32 := by omega
      rw [e]
    · simp only [micros_fst, hs, e1, e3]
      simp only [hq, ht, ne_eq, not_true_eq_false, not_false_eq_true, and_self, false_and,
        if_true, if_false]
  · have hk := (micros_16MHz_value s)
    rw [hk, ht]
    simp only [lt_irrefl, and_false, if_false]

/-- Instance of C15: overflow count 7, `TCNT0 = 10` and `TOV0` raised. -/
theorem pending_overflow_compensation_witness :
    (micros F_CPU_16MHz { sample with TCNT0 := 10 }).1 =
      (micros F_CPU_16MHz (service F_CPU_16MHz { sample with TCNT0 := 10 })).1 ∧
    (micros F_CPU_16MHz { sample with TCNT0 := 10 }).1 = 8232 :=
  ⟨((pending_overflow_compensation F_CPU_16MHz { sample with TCNT0 := 10 }).1
      (by decide) (by decide)).2, by decide⟩

/-- Claim C16. At 16 MHz, after `N` calls of `interrupt()` from the constructed
state, with `128 * N < 125 * 2 ^ 32`, the fields satisfy
`125 * timer0_millis + timer0_fract = 128 * timer0_overflow_count = 128 * N`;
equivalently `timer0_millis = 128 * N / 125` and
`timer0_fract = 128 * N mod 125`. -/
theorem no_time_lost (hw : AVR) (N : Nat) (h : 128 * N < 125 * 2 ^ 32) :
    125 * (interrupts F_CPU_16MHz N (AVR_millis hw)).timer0_millis +
        (interrupts F_CPU_16MHz N (AVR_millis hw)).timer0_fract =
      128 * (interrupts F_CPU_16MHz N (AVR_millis hw)).timer0_overflow_count ∧
    128 * (interrupts F_CPU_16MHz N (AVR_millis hw)).timer0_overflow_count = 128 * N ∧
    (interrupts F_CPU_16MHz N (AVR_millis hw)).timer0_millis = 128 * N / 125 ∧
    (interrupts F_CPU_16MHz N (AVR_millis hw)).timer0_fract = 128 * N % 125 := by
  have e0 : 128 * N / 125 = N + 3 * N / 125 := by omega
  have em : (N + 3 * N / 125) % 2 ^ 32 = 128 * N / 125 := by
    rw [e0]
    exact Nat.mod_eq_of_lt (by omega)
  have ef : 3 * N % 125 = 128 * N % 125 := by omega
  have ec : N % 2 ^ 32 = N := by omega
  obtain ⟨hc0, hm0, hf0⟩ := AVR_millis_fields hw
  obtain ⟨hf, hm⟩ := interrupts_16MHz N (AVR_millis hw) (by omega) (by omega)
  have hc := interrupts_overflow_count F_CPU_16MHz N (AVR_millis hw) (by omega)
  rw [hm0, hf0, Nat.zero_add, Nat.zero_add, em] at hm
  rw [hf0, Nat.zero_add, ef] at hf
  rw [hc0, Nat.zero_add, ec] at hc
  rw [hm, hf, hc]
  omega

/-- Instance of C16 at `N = 1000`. -/
theorem no_time_lost_witness :
    (interrupts F_CPU_16MHz 1000 (AVR_millis sample)).timer0_millis = 128 * 1000 / 125 ∧
    (interrupts F_CPU_16MHz 1000 (AVR_millis sample)).timer0_fract = 128 * 1000 % 125 :=
  (no_time_lost sample 1000 (by decide)).2.2

/-- Claim C17. At 16 MHz, from a state with `timer0_fract < 125`, 125 calls of
`interrupt()` bring `timer0_fract` back to its starting value and advance
`timer0_millis` by 128 (mod `2 ^ 32`): 125 times `MILLIS_INC` plus exactly 3
leap milliseconds. -/
theorem leap_periodicity (s : AVR) (hf : s.timer0_fract < 125) (hm : s.timer0_millis < 2 ^ 32) :
    (interrupts F_CPU_16MHz 125 s).timer0_fract = s.timer0_fract ∧
    (interrupts F_CPU_16MHz 125 s).timer0_millis = (s.timer0_millis + 128) % 2 ^ 32 ∧
    leaps F_CPU_16MHz 125 s = 3 ∧
    128 = 125 * MILLIS_INC F_CPU_16MHz + leaps F_CPU_16MHz 125 s := by
  obtain ⟨ef, em⟩ := interrupts_16MHz 125 s hf hm
  have el := leaps_16MHz 125 s hf hm
  rw [ef, em, el, MILLIS_INC_16MHz]
  omega

/-- Instance of C17 in which `timer0_millis` wraps. -/
theorem leap_periodicity_witness :
    (interrupts F_CPU_16MHz 125
      { sample with timer0_millis := 4294967290, timer0_fract := 124 }).timer0_fract = 124 ∧
    (interrupts F_CPU_16MHz 125
      { sample with timer0_millis := 4294967290, timer0_fract := 124 }).timer0_millis = 122 ∧
    leaps F_CPU_16MHz 125 { sample with timer0_millis := 4294967290, timer0_fract := 124 } = 3 :=
  ⟨(leap_periodicity { sample with timer0_millis := 4294967290, timer0_fract := 124 }
      (by decide) (by decide)).1,
    (leap_periodicity { sample with timer0_millis := 4294967290, timer0_fract := 124 }
      (by decide) (by decide)).2.1,
    (leap_periodicity { sample with timer0_millis := 4294967290, timer0_fract := 124 }
      (by decide) (by decide)).2.2.1⟩

/-- Claim C18. At 16 MHz, in the state after `N < 2 ^ 22` calls of `interrupt()`
from the constructed state, with `TOV0` clear and any `TCNT0` from 0 to 255,
`millis() <= micros() / 1000 <= millis() + 2`. -/
theorem clocks_agree (hw : AVR) (N t r : Nat) (hN : N < 2 ^ 22) (ht : t ≤ 255)
    (hr : r &&& (1 <<< TOV0) = 0) :
    (millis { interrupts F_CPU_16MHz N (AVR_millis hw) with TCNT0 := t, TIFR0 := r }).1 ≤
      (micros F_CPU_16MHz
        { interrupts F_CPU_16MHz N (AVR_millis hw) with TCNT0 := t, TIFR0 := r }).1 / 1000 ∧
    (micros F_CPU_16MHz
        { interrupts F_CPU_16MHz N (AVR_millis hw) with TCNT0 := t, TIFR0 := r }).1 / 1000 ≤
      (millis { interrupts F_CPU_16MHz N (AVR_millis hw) with TCNT0 := t, TIFR0 := r }).1 + 2 := by
  have a1 : (N + 3 * N / 125) % 2 ^ 32 = N + 3 * N / 125 := by omega
  have a2 : N % 2 ^ 32 = N := by omega
  have a3 : N * 256 % 2 ^ 32 = N * 256 := by omega
  have a4 : (N * 256 + t) % 2 ^ 32 = N * 256 + t := by omega
  have a5 : (N * 256 + t) * 4 % 2 ^ 32 = (N * 256 + t) * 4 := by omega
  obtain ⟨hc0, hm0, hf0⟩ := AVR_millis_fields hw
  have hm := (interrupts_16MHz N (AVR_millis hw) (by omega) (by omega)).2
  have hc := interrupts_overflow_count F_CPU_16MHz N (AVR_millis hw) (by omega)
  rw [hm0, hf0, Nat.zero_add, Nat.zero_add, a1] at hm
  rw [hc0, Nat.zero_add, a2] at hc
  have h4 : 64 / clockCyclesPerMicrosecond F_CPU_16MHz = 4 := by decide
  have e1 : (millis
      { interrupts F_CPU_16MHz N (AVR_millis hw) with TCNT0 := t, TIFR0 := r }).1 =
      (interrupts F_CPU_16MHz N (AVR_millis hw)).timer0_millis := rfl
  have e2 : (micros F_CPU_16MHz
      { interrupts F_CPU_16MHz N (AVR_millis hw) with TCNT0 := t, TIFR0 := r }).1 =
      ((((if r &&& (1 <<< TOV0) ≠ 0 ∧ t < 255
          then ((interrupts F_CPU_16MHz N (AVR_millis hw)).timer0_overflow_count + 1) % 2 ^ 32
          else (interrupts F_CPU_16MHz N (AVR_millis hw)).timer0_overflow_count) <<< 8) % 2 ^ 32
        + t) % 2 ^ 32 * (64 / clockCyclesPerMicrosecond F_CPU_16MHz)) % 2 ^ 32 := rfl
  have hr' : ¬ (r &&& (1 <<< TOV0) ≠ 0 ∧ t < 255) := fun hx => hx.1 hr
  rw [e1, e2, if_neg hr', hm, hc, h4, shiftLeft_8, a3, a4, a5]
  omega

/-- Instance of C18 at `N = 1000`, `TCNT0 = 255`: `millis()` is 1024 and `micros()`
is 1025020. -/
theorem clocks_agree_witness :
    (millis { interrupts F_CPU_16MHz 1000 (AVR_millis sample) with
      TCNT0 := 255, TIFR0 := 6 }).1 ≤
      (micros F_CPU_16MHz { interrupts F_CPU_16MHz 1000 (AVR_millis sample) with
        TCNT0 := 255, TIFR0 := 6 }).1 / 1000 ∧
    (micros F_CPU_16MHz { interrupts F_CPU_16MHz 1000 (AVR_millis sample) with
        TCNT0 := 255, TIFR0 := 6 }).1 / 1000 ≤
      (millis { interrupts F_CPU_16MHz 1000 (AVR_millis sample) with
        TCNT0 := 255, TIFR0 := 6 }).1 + 2 :=
  clocks_agree sample 1000 255 6 (by decide) (by decide) (by decide)

end AVRmillis
